import Mathlib

/-!
Verification of the picture-bot selection, history and scheduling core.

The development shallowly embeds the program's core (history.py and the
selection/dispatch/scheduling logic of main.py) as executable Lean
definitions and proves the specified properties about them.

Modelling conventions:
- A Python set of strings is a duplicate-free List String; set.add and
  set.remove become pySetAdd and List.erase.
- random.choice over a nonempty list is modelled by an arbitrary index
  (choice % length), covering every possible draw.
- Fallible external calls (Google Drive download, file open, Telegram
  send_photo) are oracles supplied in a SendEnv record; a raised exception
  that the code catches is an oracle outcome, since the except clauses
  turn it into a normal False return.
- File-system durability and the asyncio event-loop interleaving are given
  small explicit operational models where a claim needs them.
-/

namespace PictureBot

/-! History store (history.py). The in-memory state self.sent_images is a
Python set of strings, modelled as a duplicate-free list. -/

/-- Python set.add on a duplicate-free list: no change when the element is
already present, otherwise append it. -/
def pySetAdd (s : List String) (x : String) : List String :=
  if x ∈ s then s else s ++ [x]

/-- The durable record written by HistoryManager._save_history: the image
list, a last-updated timestamp and a derived count (history.py lines 45-49). -/
structure HistoryRecord where
  images : List String
  last_updated : String
  total_count : Nat
deriving DecidableEq, Repr

/-- HistoryManager._save_history (history.py lines 42-54): builds the record
from the current in-memory set; the count field is the set's size. -/
def save_history (sent_images : List String) (now : String) : HistoryRecord :=
  { images := sent_images, last_updated := now, total_count := sent_images.length }

/-- Possible states of the history file seen by _load_history: missing,
unparseable, the structured dict format, or the legacy bare-list format. -/
inductive HistoryFile
  | absent
  | corrupt
  | dictData (r : HistoryRecord)
  | listData (l : List String)

/-- HistoryManager._load_history (history.py lines 22-40): empty set when the
file is missing or unreadable; set(data.get images) for the dict format
(deduplicating, as the Python set constructor does); set(data) for the
legacy list format. -/
def load_history : HistoryFile → List String
  | HistoryFile.absent => []
  | HistoryFile.corrupt => []
  | HistoryFile.dictData r => r.images.dedup
  | HistoryFile.listData l => l.dedup

/-- HistoryManager.add_image (history.py lines 56-60): insert the path into
the set, then persist the full set. Returns the new in-memory set and the
record written to disk. -/
def add_image (sent_images : List String) (image_path : String) (now : String) :
    List String × HistoryRecord :=
  let s := pySetAdd sent_images image_path
  (s, save_history s now)

/-- HistoryManager.is_sent (history.py lines 62-64). -/
def is_sent (sent_images : List String) (image_path : String) : Bool :=
  image_path ∈ sent_images

/-- HistoryManager.get_unsent_images (history.py lines 66-69): filter the
available images down to those not recorded as sent. -/
def get_unsent_images (sent_images : List String) (available_images : List String) :
    List String :=
  available_images.filter (fun img => ! is_sent sent_images img)

/-- HistoryManager.remove_image (history.py lines 86-93): when present,
remove the path, persist, return true; otherwise return false without
persisting. Result: (returned bool, new in-memory set, record written if any). -/
def remove_image (sent_images : List String) (image_path : String) (now : String) :
    Bool × List String × Option HistoryRecord :=
  if image_path ∈ sent_images then
    (true, sent_images.erase image_path,
      some (save_history (sent_images.erase image_path) now))
  else
    (false, sent_images, none)

/-! Selector (main.py get_random_image) and dispatch (main.py send_image). -/

/-- get_random_image (main.py lines 92-105): filter to unsent images; None if
none remain, otherwise random.choice. The random draw is modelled by an
arbitrary index choice taken modulo the list length, so every possible
outcome of random.choice is some value of choice. -/
def get_random_image (sent_images available_images : List String) (choice : Nat) :
    Option String :=
  if (get_unsent_images sent_images available_images).isEmpty then none
  else
    (get_unsent_images sent_images available_images)[choice %
      (get_unsent_images sent_images available_images).length]?

/-- Outcome of the awaited bot.send_photo call inside send_image: success, or
one of the exception classes caught by send_image's except clauses
(main.py lines 142-150). -/
inductive DeliverOutcome
  | ok
  | telegramError
  | fileNotFound
  | unexpectedError
deriving DecidableEq, Repr

/-- Oracles for the external calls made by send_image: the configured image
source, the Google Drive download (None on failure, main.py lines 153-181),
whether open(image_path) succeeds (false models the caught
FileNotFoundError), and the delivery outcome. -/
structure SendEnv where
  image_source_google_drive : Bool
  download : String → Option String
  file_openable : String → Bool
  send_photo : DeliverOutcome

/-- send_image (main.py lines 108-150): select, (download when remote), open,
deliver; history_manager.add_image runs strictly after a successful
send_photo, and every failure path returns False with the history
untouched. Result: (returned bool, in-memory history after the call). -/
def send_image (env : SendEnv) (sent_images available_images : List String)
    (choice : Nat) (now : String) : Bool × List String :=
  match get_random_image sent_images available_images choice with
  | none => (false, sent_images)
  | some image_name =>
    match (if env.image_source_google_drive then env.download image_name
           else some image_name) with
    | none => (false, sent_images)
    | some image_path =>
      if env.file_openable image_path then
        match env.send_photo with
        | DeliverOutcome.ok => (true, (add_image sent_images image_name now).1)
        | _ => (false, sent_images)
      else (false, sent_images)

/-! Scheduler (main.py scheduled_send, setup_schedule, handle_message). -/

/-- What a scheduled tick did: skipped by the working-hours gate, or invoked
the send action. -/
inductive TickResult
  | skipped
  | dispatched
deriving DecidableEq, Repr

/-- scheduled_send (main.py lines 333-348): the whole body is wrapped in
try/except Exception, so an error raised by the send action is caught and
the callback returns normally. The gate skips the send when the local hour
is before START_HOUR or at/after END_HOUR. The send action's outcome is a
normal return or a raised error, modelled as Except. -/
def scheduled_send (start_hour end_hour current_hour : Nat)
    (sendOutcome : Except String Bool) : Except String TickResult :=
  if current_hour < start_hour ∨ current_hour ≥ end_hour then
    Except.ok TickResult.skipped
  else
    match sendOutcome with
    | Except.ok _ => Except.ok TickResult.dispatched
    | Except.error _ => Except.ok TickResult.dispatched

/-- The module-level mutable scheduling state of main.py: the global
current_send_interval (minutes, line 33) and the interval, in seconds, of
the repeating job armed by job_queue.run_repeating (none before
setup_schedule runs). -/
structure BotState where
  current_send_interval : Nat
  job_interval_seconds : Option Nat
deriving DecidableEq, Repr

/-- Module initialisation (main.py line 33): interval defaults to 60 minutes,
no job armed yet. -/
def initialBotState : BotState :=
  { current_send_interval := 60, job_interval_seconds := none }

/-- setup_schedule (main.py lines 386-403): reads current_send_interval once,
converts it to seconds and arms run_repeating with that fixed interval. -/
def setup_schedule (s : BotState) : BotState :=
  { s with job_interval_seconds := some (s.current_send_interval * 60) }

/-- The interval-selection branch of handle_message (main.py lines 314-326):
it assigns the global current_send_interval and replies; the armed job is
not touched, rescheduled or re-created. -/
def handle_interval_message (s : BotState) (minutes : Nat) : BotState :=
  { s with current_send_interval := minutes }

/-- Firing time (seconds after setup) of the n-th tick of the armed job:
run_repeating fires first after 60 seconds, then every job interval
(main.py lines 395-401). -/
def tick_time (s : BotState) (n : Nat) : Option Nat :=
  match s.job_interval_seconds with
  | none => none
  | some i => some (60 + n * i)

/-! Durability model for HistoryManager._save_history. The claim about
atomic persistence is about what the history file can hold if the process
is interrupted mid-save, so we model the file-system operations the save
performs and the contents reachable at a crash. File contents are abstract
byte lists; old and new encoded records are distinct byte strings. -/

/-- File-system operations available to a save routine. -/
inductive FsOp
  | writeHistoryFile (content : List Nat)
  | writeTempFile (content : List Nat)
  | renameTempOverHistory
deriving DecidableEq, Repr

/-- The operations _save_history performs (history.py lines 50-51): a single
in-place truncating write of the new record to the history file, via
open(self.history_file, w-mode) followed by json.dump. No temporary file
and no rename are involved. -/
def save_history_ops (newContent : List Nat) : List FsOp :=
  [FsOp.writeHistoryFile newContent]

/-- Durable state: contents of the history file and of the temp file. -/
structure FsState where
  historyFile : List Nat
  tempFile : List Nat
deriving DecidableEq, Repr

/-- Effect of one completed file-system operation. -/
def applyFsOp (st : FsState) : FsOp → FsState
  | FsOp.writeHistoryFile c => { st with historyFile := c }
  | FsOp.writeTempFile c => { st with tempFile := c }
  | FsOp.renameTempOverHistory => { st with historyFile := st.tempFile }

/-- The partial contents a plain truncating write can leave behind when
interrupted: any prefix of the data, including the empty file left right
after truncation. -/
def writePartials (c : List Nat) : List (List Nat) :=
  (List.range (c.length + 1)).map (fun j => c.take j)

/-- All history-file contents reachable if the process is interrupted at any
point while the given operations run: before an operation, mid-operation
(writes may be partial per writePartials; a rename is atomic so it either
has not happened or has), or after all operations. -/
def crashFileContents : FsState → List FsOp → List (List Nat)
  | st, [] => [st.historyFile]
  | st, op :: ops =>
    let partials : List (List Nat) :=
      match op with
      | FsOp.writeHistoryFile c => writePartials c
      | FsOp.writeTempFile _ => [st.historyFile]
      | FsOp.renameTempOverHistory => [st.historyFile, st.tempFile]
    st.historyFile :: partials ++ crashFileContents (applyFsOp st op) ops

/-! Concurrency model for overlapping dispatches. In send_image the history
read (get_random_image) and the history write (add_image) are separated by
the awaited bot.send_photo call, where the asyncio event loop is free to
run other callbacks: the job-queue callback scheduled_send runs as its own
task, concurrently with command handling, and main.py contains no
dispatch-in-progress lock, busy flag or queue. We model one scheduled and
one manual dispatch as two tasks of two atomic steps each; because an
await separates the steps, every order-preserving interleaving of the two
tasks is admissible. -/

/-- The two history-touching steps of one send_image dispatch, separated in
the source by the awaited delivery call. -/
inductive DispatchStep
  | readSelect
  | writeHistory
deriving DecidableEq, Repr

/-- True marks the manual send-now dispatch, false the scheduled tick. -/
abbrev DispatchTask := Bool

/-- The per-task step sequence of send_image: select from history, then (on
successful delivery) write the selection into history. -/
def dispatchSteps : List DispatchStep :=
  [DispatchStep.readSelect, DispatchStep.writeHistory]

/-- The steps a given task performs in a trace, in order. -/
def taskSteps (t : DispatchTask) (tr : List (DispatchTask × DispatchStep)) :
    List DispatchStep :=
  (tr.filter (fun p => p.1 == t)).map Prod.snd

/-- A trace is admissible when each task performs exactly the send_image step
sequence in order. The unguarded source imposes no further constraint on
how the two tasks interleave. -/
def admissible (tr : List (DispatchTask × DispatchStep)) : Bool :=
  taskSteps false tr == dispatchSteps && taskSteps true tr == dispatchSteps

/-- A trace is serialized when one dispatch completes entirely before the
other starts, which is what mutual exclusion of dispatches would force. -/
def serialized (tr : List (DispatchTask × DispatchStep)) : Bool :=
  tr == [(false, DispatchStep.readSelect), (false, DispatchStep.writeHistory),
         (true, DispatchStep.readSelect), (true, DispatchStep.writeHistory)] ||
  tr == [(true, DispatchStep.readSelect), (true, DispatchStep.writeHistory),
         (false, DispatchStep.readSelect), (false, DispatchStep.writeHistory)]

/-- Shared state while two dispatches run: the history set and each task's
current selection. -/
structure ExecState where
  hist : List String
  selScheduled : Option String
  selManual : Option String
deriving DecidableEq, Repr

/-- Effect of one dispatch step: readSelect runs get_random_image against the
current history; writeHistory runs add_image on the task's selection, as
send_image does after a successful delivery. -/
def dispatchStepExec (pool : List String) (choice : Nat) (st : ExecState)
    (p : DispatchTask × DispatchStep) : ExecState :=
  match p.2 with
  | DispatchStep.readSelect =>
    if p.1 then { st with selManual := get_random_image st.hist pool choice }
    else { st with selScheduled := get_random_image st.hist pool choice }
  | DispatchStep.writeHistory =>
    match (if p.1 then st.selManual else st.selScheduled) with
    | some img => { st with hist := pySetAdd st.hist img }
    | none => st

/-- Run a trace of dispatch steps from a starting history. -/
def runDispatches (pool : List String) (choice : Nat) (hist : List String)
    (tr : List (DispatchTask × DispatchStep)) : ExecState :=
  tr.foldl (dispatchStepExec pool choice)
    { hist := hist, selScheduled := none, selManual := none }

/-- The interleaving in which the manual dispatch's history read lands inside
the scheduled dispatch's read-then-write pair, i.e. the manual command
arrives while the scheduled send_image is awaiting bot.send_photo. -/
def overlappedTrace : List (DispatchTask × DispatchStep) :=
  [(false, DispatchStep.readSelect), (true, DispatchStep.readSelect),
   (false, DispatchStep.writeHistory), (true, DispatchStep.writeHistory)]

/-! Helper lemmas. -/

/-- Membership in the unsent filter. -/
theorem mem_get_unsent_images (sent_images available_images : List String) (x : String) :
    x ∈ get_unsent_images sent_images available_images ↔
      x ∈ available_images ∧ x ∉ sent_images := by
  unfold get_unsent_images is_sent
  simp

/-- The unsent filter is empty exactly when every available image is sent. -/
theorem get_unsent_images_eq_nil (sent_images available_images : List String) :
    get_unsent_images sent_images available_images = [] ↔
      ∀ x ∈ available_images, x ∈ sent_images := by
  unfold get_unsent_images is_sent
  simp [List.filter_eq_nil_iff]

/-- get_random_image returns none exactly when the unsent filter is empty. -/
theorem get_random_image_eq_none_iff (sent_images available_images : List String)
    (choice : Nat) :
    get_random_image sent_images available_images choice = none ↔
      get_unsent_images sent_images available_images = [] := by
  unfold get_random_image
  by_cases he : (get_unsent_images sent_images available_images).isEmpty
  · simp [he, List.isEmpty_iff.mp he]
  · have hlen : 0 < (get_unsent_images sent_images available_images).length := by
      cases hq : get_unsent_images sent_images available_images with
      | nil => rw [hq] at he; simp at he
      | cons a l => simp [hq]
    have hlt : choice % (get_unsent_images sent_images available_images).length <
        (get_unsent_images sent_images available_images).length := Nat.mod_lt _ hlen
    simp [he, List.getElem?_eq_getElem hlt]
    intro hq
    rw [hq] at hlen
    simp at hlen

/-! Theorems for the claims. -/

/-- C1: get_random_image returns an image of the pool that is not in the
history whenever one exists, and returns none exactly when every pool
element is already in the history. -/
theorem get_random_image_spec (sent_images available_images : List String)
    (choice : Nat) :
    (∀ x, get_random_image sent_images available_images choice = some x →
      x ∈ available_images ∧ x ∉ sent_images) ∧
    (get_random_image sent_images available_images choice = none ↔
      ∀ x ∈ available_images, x ∈ sent_images) ∧
    ((∃ x ∈ available_images, x ∉ sent_images) →
      ∃ x, get_random_image sent_images available_images choice = some x ∧
        x ∈ available_images ∧ x ∉ sent_images) := by
  have hsome : ∀ x, get_random_image sent_images available_images choice = some x →
      x ∈ available_images ∧ x ∉ sent_images := by
    intro x hx
    unfold get_random_image at hx
    by_cases he : (get_unsent_images sent_images available_images).isEmpty
    · simp [he] at hx
    · simp [he] at hx
      exact (mem_get_unsent_images _ _ _).mp (List.getElem?_mem hx)
  have hnone : get_random_image sent_images available_images choice = none ↔
      ∀ x ∈ available_images, x ∈ sent_images := by
    rw [get_random_image_eq_none_iff]
    exact get_unsent_images_eq_nil _ _
  refine ⟨hsome, hnone, ?_⟩
  intro hex
  cases hg : get_random_image sent_images available_images choice with
  | none =>
    rcases hex with ⟨x, hxa, hxs⟩
    exact absurd (hnone.mp hg x hxa) hxs
  | some y => exact ⟨y, rfl, hsome y hg⟩

/-- Witness for C1: with pool [a] and empty history an unsent image exists and
get_random_image returns one. -/
theorem get_random_image_spec_witness :
    (∃ x ∈ (["a"] : List String), x ∉ ([] : List String)) ∧
    (∃ x, get_random_image [] ["a"] 0 = some x ∧
      x ∈ (["a"] : List String) ∧ x ∉ ([] : List String)) :=
  ⟨⟨"a", by simp⟩,
    (get_random_image_spec [] ["a"] 0).2.2 ⟨"a", by simp⟩⟩

/-- C2: when the delivery call fails or raises, send_image returns False and
the history set is exactly what it was before the call. -/
theorem send_image_delivery_failure_no_history_update (env : SendEnv)
    (sent_images available_images : List String) (choice : Nat) (now : String)
    (h : env.send_photo ≠ DeliverOutcome.ok) :
    (send_image env sent_images available_images choice now).1 = false ∧
    (send_image env sent_images available_images choice now).2 = sent_images := by
  unfold send_image
  cases hg : get_random_image sent_images available_images choice with
  | none => simp
  | some image_name =>
    cases hp : (if env.image_source_google_drive = true then env.download image_name
                else some image_name) with
    | none => simp [hp]
    | some image_path =>
      by_cases ho : env.file_openable image_path
      · cases hd : env.send_photo with
        | ok => exact absurd hd h
        | telegramError => simp [hp, ho, hd]
        | fileNotFound => simp [hp, ho, hd]
        | unexpectedError => simp [hp, ho, hd]
      · simp [hp, ho]

/-- An environment whose delivery raises a Telegram error. -/
def failEnv : SendEnv :=
  { image_source_google_drive := false
    download := fun _ => none
    file_openable := fun _ => true
    send_photo := DeliverOutcome.telegramError }

/-- Witness for C2: a concrete failed delivery returns False and leaves the
history empty. -/
theorem send_image_delivery_failure_no_history_update_witness :
    failEnv.send_photo ≠ DeliverOutcome.ok ∧
    (send_image failEnv [] ["a"] 0 "t").1 = false ∧
    (send_image failEnv [] ["a"] 0 "t").2 = [] :=
  ⟨by decide,
    (send_image_delivery_failure_no_history_update failEnv [] ["a"] 0 "t" (by decide)).1,
    (send_image_delivery_failure_no_history_update failEnv [] ["a"] 0 "t" (by decide)).2⟩

/-- C3 counterexample: interrupting the single in-place write of _save_history
can leave the history file holding a strict prefix of the new record, a
content that is neither the old durable record nor the new one, so the save
is not all-or-nothing. -/
theorem save_history_not_all_or_nothing :
    [1] ∈ crashFileContents { historyFile := [0], tempFile := [] }
      (save_history_ops [1, 2]) ∧
    ([1] : List Nat) ≠ [0] ∧ ([1] : List Nat) ≠ [1, 2] := by decide

/-- C3 amended: _save_history performs one direct truncating write, with no
temp file and no rename, so a crash leaves the history file holding either
the old content or some prefix of the new record - possibly empty or
partial, not only old-or-new. -/
theorem save_history_crash_contents (old temp newContent c : List Nat)
    (h : c ∈ crashFileContents { historyFile := old, tempFile := temp }
      (save_history_ops newContent)) :
    c = old ∨ ∃ j, c = newContent.take j := by
  simp [crashFileContents, save_history_ops, writePartials, applyFsOp] at h
  rcases h with h | ⟨j, hlt, hj⟩ | h
  · exact Or.inl h
  · exact Or.inr ⟨j, hj.symm⟩
  · exact Or.inr ⟨newContent.length, by simp [h]⟩

/-- Witness for C3 amended at the counterexample crash state. -/
theorem save_history_crash_contents_witness :
    [1] ∈ crashFileContents { historyFile := [0], tempFile := [] }
      (save_history_ops [1, 2]) ∧
    (([1] : List Nat) = [0] ∨ ∃ j, ([1] : List Nat) = ([1, 2] : List Nat).take j) :=
  ⟨by decide, save_history_crash_contents [0] [] [1, 2] [1] (by decide)⟩

/-- C4: after setup_schedule arms the job with the 60-minute default, changing
the interval to 15 minutes only updates the global variable; the armed job
keeps its 3600-second interval and later ticks stay 3600 seconds apart
(tick n fires at 60 + n * 3600 seconds), never adopting 900 seconds. -/
theorem interval_change_never_reaches_armed_job :
    (handle_interval_message (setup_schedule initialBotState) 15).current_send_interval
        = 15 ∧
    (handle_interval_message (setup_schedule initialBotState) 15).job_interval_seconds
        = some 3600 ∧
    tick_time (handle_interval_message (setup_schedule initialBotState) 15) 1
        = some 3660 ∧
    tick_time (handle_interval_message (setup_schedule initialBotState) 15) 2
        = some 7260 := by decide

/-- C5 counterexample: the trace in which the manual dispatch reads the
history while the scheduled dispatch sits between its own history read and
write is admissible for the unguarded code, is not a serialized execution,
and makes both in-flight dispatches select the same image. -/
theorem dispatch_not_mutually_exclusive :
    admissible overlappedTrace = true ∧
    serialized overlappedTrace = false ∧
    (runDispatches ["a", "b"] 0 [] overlappedTrace).selScheduled = some "a" ∧
    (runDispatches ["a", "b"] 0 [] overlappedTrace).selManual = some "a" := by decide

/-- C5 amended: there is no dispatch-in-progress guard; a dispatch arriving
while another awaits delivery neither waits nor is rejected, and its
history read interleaves with the other's read-then-mutate pair: whenever
an unsent image exists, the overlapped trace is admissible, not serialized,
and both dispatches select the same image. -/
theorem overlapped_dispatches_admissible_and_collide (pool hist : List String)
    (choice : Nat) (h : get_unsent_images hist pool ≠ []) :
    admissible overlappedTrace = true ∧
    serialized overlappedTrace = false ∧
    (runDispatches pool choice hist overlappedTrace).selManual =
      (runDispatches pool choice hist overlappedTrace).selScheduled ∧
    (runDispatches pool choice hist overlappedTrace).selScheduled ≠ none := by
  cases hg : get_random_image hist pool choice with
  | none =>
    exact absurd ((get_random_image_eq_none_iff hist pool choice).mp hg) h
  | some u =>
    refine ⟨by decide, by decide, ?_, ?_⟩
    · simp [runDispatches, overlappedTrace, dispatchStepExec, hg]
    · simp [runDispatches, overlappedTrace, dispatchStepExec, hg]

/-- Witness for C5 amended: pool [a, b] with empty history. -/
theorem overlapped_dispatches_admissible_and_collide_witness :
    get_unsent_images [] ["a", "b"] ≠ [] ∧
    (admissible overlappedTrace = true ∧
     serialized overlappedTrace = false ∧
     (runDispatches ["a", "b"] 0 [] overlappedTrace).selManual =
       (runDispatches ["a", "b"] 0 [] overlappedTrace).selScheduled ∧
     (runDispatches ["a", "b"] 0 [] overlappedTrace).selScheduled ≠ none) :=
  ⟨by decide, overlapped_dispatches_admissible_and_collide ["a", "b"] [] 0 (by decide)⟩

/-- C6: a scheduled tick dispatches exactly when start_hour ≤ hour < end_hour
and is skipped otherwise; with the 9-to-21 window, hours 8 and 21 skip and
hours 9 and 20 dispatch. -/
theorem scheduled_send_gate (start_hour end_hour current_hour : Nat)
    (res : Except String Bool) :
    (scheduled_send start_hour end_hour current_hour res
        = Except.ok TickResult.dispatched ↔
      start_hour ≤ current_hour ∧ current_hour < end_hour) ∧
    (scheduled_send start_hour end_hour current_hour res
        = Except.ok TickResult.skipped ↔
      current_hour < start_hour ∨ end_hour ≤ current_hour) ∧
    scheduled_send 9 21 8 res = Except.ok TickResult.skipped ∧
    scheduled_send 9 21 21 res = Except.ok TickResult.skipped ∧
    scheduled_send 9 21 9 res = Except.ok TickResult.dispatched ∧
    scheduled_send 9 21 20 res = Except.ok TickResult.dispatched := by
  have h1 : ∀ s e h : Nat, scheduled_send s e h res = Except.ok TickResult.dispatched ↔
      (s ≤ h ∧ h < e) := by
    intro s e h
    unfold scheduled_send
    by_cases hc : h < s ∨ h ≥ e
    · simp [hc]
      omega
    · cases res <;> simp [hc] <;> omega
  have h2 : ∀ s e h : Nat, scheduled_send s e h res = Except.ok TickResult.skipped ↔
      (h < s ∨ e ≤ h) := by
    intro s e h
    unfold scheduled_send
    by_cases hc : h < s ∨ h ≥ e
    · simp [hc]
    · cases res <;> simp [hc]
  exact ⟨h1 _ _ _, h2 _ _ _,
    (h2 9 21 8).mpr (by omega), (h2 9 21 21).mpr (by omega),
    (h1 9 21 9).mpr (by omega), (h1 9 21 20).mpr (by omega)⟩

/-- C7: after add_image builds and persists its record, a fresh load of that
record contains the added image. -/
theorem add_image_round_trip (sent_images : List String) (x now : String) :
    x ∈ load_history (HistoryFile.dictData (add_image sent_images x now).2) := by
  unfold add_image save_history load_history pySetAdd
  by_cases h : x ∈ sent_images
  · simp [h]
  · simp [h]

/-- C8: the scheduled tick callback returns normally for every send outcome,
including a raised error, which its try/except catches, so a failed send
never stops future ticks. -/
theorem scheduled_send_total (start_hour end_hour current_hour : Nat)
    (res : Except String Bool) :
    ∃ t, scheduled_send start_hour end_hour current_hour res = Except.ok t := by
  unfold scheduled_send
  by_cases hc : current_hour < start_hour ∨ current_hour ≥ end_hour
  · exact ⟨TickResult.skipped, by simp [hc]⟩
  · cases res with
    | ok b => exact ⟨TickResult.dispatched, by simp [hc]⟩
    | error e => exact ⟨TickResult.dispatched, by simp [hc]⟩

/-- C9: remove_image returns true exactly when the image was present; it
removes the image, keeps every other image, and persists the updated set
when it removed; when absent it changes and persists nothing. -/
theorem remove_image_spec (sent_images : List String) (x now : String)
    (hnd : sent_images.Nodup) :
    ((remove_image sent_images x now).1 = true ↔ x ∈ sent_images) ∧
    x ∉ (remove_image sent_images x now).2.1 ∧
    (∀ y, y ≠ x → (y ∈ (remove_image sent_images x now).2.1 ↔ y ∈ sent_images)) ∧
    (x ∈ sent_images →
      (remove_image sent_images x now).2.2 =
        some (save_history ((remove_image sent_images x now).2.1) now)) ∧
    (x ∉ sent_images →
      (remove_image sent_images x now).2.1 = sent_images ∧
      (remove_image sent_images x now).2.2 = none) := by
  unfold remove_image
  by_cases h : x ∈ sent_images
  · simp [h, hnd.not_mem_erase]
    intro y hy
    exact List.mem_erase_of_ne hy
  · simp [h]

/-- Witness for C9 on the duplicate-free set [a, b]. -/
theorem remove_image_spec_witness :
    (["a", "b"] : List String).Nodup ∧
    (((remove_image ["a", "b"] "a" "t").1 = true ↔ "a" ∈ (["a", "b"] : List String)) ∧
     "a" ∉ (remove_image ["a", "b"] "a" "t").2.1 ∧
     (∀ y, y ≠ "a" →
       (y ∈ (remove_image ["a", "b"] "a" "t").2.1 ↔ y ∈ (["a", "b"] : List String))) ∧
     ("a" ∈ (["a", "b"] : List String) →
       (remove_image ["a", "b"] "a" "t").2.2 =
         some (save_history ((remove_image ["a", "b"] "a" "t").2.1) "t")) ∧
     ("a" ∉ (["a", "b"] : List String) →
       (remove_image ["a", "b"] "a" "t").2.1 = ["a", "b"] ∧
       (remove_image ["a", "b"] "a" "t").2.2 = none)) :=
  ⟨by decide, remove_image_spec ["a", "b"] "a" "t" (by decide)⟩

/-- C10: add_image is idempotent on the set: adding an already-present image
leaves the in-memory set and the persisted record unchanged, and adding the
same image twice yields the same set as adding it once. -/
theorem add_image_idempotent (sent_images : List String) (x now : String) :
    (x ∈ sent_images →
      (add_image sent_images x now).1 = sent_images ∧
      (add_image sent_images x now).2 = save_history sent_images now) ∧
    (add_image (add_image sent_images x now).1 x now).1 =
      (add_image sent_images x now).1 := by
  unfold add_image pySetAdd
  by_cases h : x ∈ sent_images
  · simp [h]
  · simp [h]

/-- Witness for C10: adding a present image is a no-op on the set and the
record. -/
theorem add_image_idempotent_witness :
    "a" ∈ (["a"] : List String) ∧
    ((add_image ["a"] "a" "t").1 = ["a"] ∧
     (add_image ["a"] "a" "t").2 = save_history ["a"] "t") :=
  ⟨by decide, (add_image_idempotent ["a"] "a" "t").1 (by decide)⟩

end PictureBot
